import Mathlib

/-!
Verification of the indicator / signal pipeline of the Tesla stock-analysis
dashboard (`app.py`).

The app enriches a daily close-price series with technical indicator columns
(SMA 20/50, RSI 14, MACD 12/26/9, Bollinger bands 20/2), drops incomplete
rows for charting, and derives a Buy/Sell/Hold signal from three votes
(linear-regression trend, RSI level, MACD vs. its signal line).

Prices are modelled as exact rationals (`ℚ`); a missing value (pandas `NaN`
in a column prefix) is modelled as `none : Option ℚ`.  The indicator columns
themselves are produced by the `pandas_ta` library, whose code is not part of
this repository; those column functions are modelled from the specification
(§4.1), as marked on each definition.  The signal function `predict_signal`
and the row-dropping are translated directly from `app.py`.
-/

namespace TeslaApp

/-- A vote cast by one of the three signal rules in `predict_signal`
(`"Buy"`, `"Sell"`, `"Hold"` strings in the source). -/
inductive Vote where
  | buy
  | sell
  | hold
deriving DecidableEq, Repr

/-- The overall classification result of `predict_signal`:
`"🟢 Buy"`, `"🔴 Sell"`, `"🟡 Hold"`, or `"Insufficient Data"`. -/
inductive Signal where
  | buy
  | sell
  | hold
  | insufficientData
deriving DecidableEq, Repr

/-- Arithmetic mean of a list of rationals (`np.mean` / pandas mean); the
mean of the empty list is 0 (it never arises on the paths we verify). -/
def listMean (l : List ℚ) : ℚ := l.sum / l.length

/-- Modelled from the spec: `sma_k[i]`, the arithmetic mean of
`close[i-k+1 .. i]`, defined only when `i ≥ k-1` and `i` is in range
(`ta.sma(close, length=k)`; pandas_ta is not in the repository). -/
def smaAt (k : ℕ) (close : List ℚ) (i : ℕ) : Option ℚ :=
  if k ≤ i + 1 ∧ i < close.length then
    some (((close.drop (i + 1 - k)).take k).sum / k)
  else none

/-- Modelled from the spec: recursive EWMA continuation — given the previous
smoothed value `p`, fold `v := α·c + (1-α)·p` over the rest of the series. -/
def ewmaFrom (α : ℚ) (p : ℚ) : List ℚ → List ℚ
  | [] => []
  | c :: cs => (α * c + (1 - α) * p) :: ewmaFrom α (α * c + (1 - α) * p) cs

/-- Modelled from the spec: EWMA with smoothing factor `α`, seeded by the
first value of the series (`adjust=false` convention, defined from index 0). -/
def ewmaList (α : ℚ) : List ℚ → List ℚ
  | [] => []
  | c :: cs => c :: ewmaFrom α c cs

/-- Modelled from the spec: `ema12`, EWMA of close with span 12, `α = 2/13`. -/
def ema12List (close : List ℚ) : List ℚ := ewmaList (2 / 13) close

/-- Modelled from the spec: `ema26`, EWMA of close with span 26, `α = 2/27`. -/
def ema26List (close : List ℚ) : List ℚ := ewmaList (2 / 27) close

/-- Modelled from the spec: `macd[i] = ema12[i] - ema26[i]`
(column `MACD_12_26_9` of `ta.macd`). -/
def macdList (close : List ℚ) : List ℚ :=
  List.zipWith (fun a b => a - b) (ema12List close) (ema26List close)

/-- Modelled from the spec: `macd_signal`, EWMA of the macd series with
span 9 (`α = 2/10`), seeded at `macd[0]` (column `MACDs_12_26_9`). -/
def macdSignalList (close : List ℚ) : List ℚ :=
  ewmaList (2 / 10) (macdList close)

/-- Modelled from the spec: `macd_hist[i] = macd[i] - macd_signal[i]`
(column `MACDh_12_26_9`). -/
def macdHistList (close : List ℚ) : List ℚ :=
  List.zipWith (fun a b => a - b) (macdList close) (macdSignalList close)

/-- `macd` at index `i` (`none` when out of range). -/
def macdAt (close : List ℚ) (i : ℕ) : Option ℚ := (macdList close).get? i

/-- `macd_signal` at index `i` (`none` when out of range). -/
def macdSignalAt (close : List ℚ) (i : ℕ) : Option ℚ := (macdSignalList close).get? i

/-- `macd_hist` at index `i` (`none` when out of range). -/
def macdHistAt (close : List ℚ) (i : ℕ) : Option ℚ := (macdHistList close).get? i

/-- Modelled from the spec: per-day gains `max(close[j+1] - close[j], 0)`;
entry `j` of this list is the gain of delta `j+1`. -/
def gainsList (close : List ℚ) : List ℚ :=
  List.zipWith (fun a b => max (a - b) 0) (close.drop 1) close

/-- Modelled from the spec: per-day losses `max(close[j] - close[j+1], 0)`. -/
def lossesList (close : List ℚ) : List ℚ :=
  List.zipWith (fun a b => max (b - a) 0) (close.drop 1) close

/-- Modelled from the spec: `rsi14[i]` via trailing 14-period simple means of
gains and losses (deltas `i-13 .. i`), `rs = avg_gain/avg_loss`,
`rsi = 100 - 100/(1+rs)`; defined only for `14 ≤ i` in range.  The spec
leaves `avg_loss = 0` open and offers clamping to 100 as the documented
policy; that clamp is adopted here (`ta.rsi` is not in the repository). -/
def rsiAt (close : List ℚ) (i : ℕ) : Option ℚ :=
  if 14 ≤ i ∧ i < close.length then
    some
      (let ag := (((gainsList close).drop (i - 14)).take 14).sum / 14
       let al := (((lossesList close).drop (i - 14)).take 14).sum / 14
       if al = 0 then 100 else 100 - 100 / (1 + ag / al))
  else none

/-- Modelled from the spec: trailing 20-period sample variance of close
(square of `bb_std`), defined only for `19 ≤ i` in range. -/
def bbVarAt (close : List ℚ) (i : ℕ) : Option ℚ :=
  if 19 ≤ i ∧ i < close.length then
    some
      (let w := (close.drop (i - 19)).take 20
       let m := w.sum / 20
       (w.map (fun x => (x - m) ^ 2)).sum / 19)
  else none

/-- `bb_middle = sma_20` (column `BBM_20_2.0`). -/
def bb_middleAt (close : List ℚ) (i : ℕ) : Option ℚ := smaAt 20 close i

/-- Modelled from the spec: `bb_upper = bb_middle + 2·bb_std` with
`bb_std = √(sample variance)` (column `BBU_20_2.0`). -/
noncomputable def bb_upperAt (close : List ℚ) (i : ℕ) : Option ℝ :=
  match smaAt 20 close i, bbVarAt close i with
  | some m, some v => some ((m : ℝ) + 2 * Real.sqrt (v : ℝ))
  | _, _ => none

/-- Modelled from the spec: `bb_lower = bb_middle - 2·bb_std`
(column `BBL_20_2.0`). -/
noncomputable def bb_lowerAt (close : List ℚ) (i : ℕ) : Option ℝ :=
  match smaAt 20 close i, bbVarAt close i with
  | some m, some v => some ((m : ℝ) - 2 * Real.sqrt (v : ℝ))
  | _, _ => none

/-- One daily bar: its timestamp (an abstract strictly ordered key) and its
close price.  Only `close` feeds the indicator arithmetic. -/
structure Bar where
  ts : Int
  close : ℚ
deriving DecidableEq, Repr

/-- The close column of a series of bars. -/
def closes (s : List Bar) : List ℚ := s.map Bar.close

/-- The enriched series: the input bars plus one derived column per
indicator, each column aligned index-by-index with the bars. -/
structure EnrichedSeries where
  bars : List Bar
  sma20 : List (Option ℚ)
  sma50 : List (Option ℚ)
  rsi14 : List (Option ℚ)
  macd : List (Option ℚ)
  macdSignal : List (Option ℚ)
  macdHist : List (Option ℚ)
  bbMiddle : List (Option ℚ)
  bbUpper : List (Option ℝ)
  bbLower : List (Option ℝ)

/-- `calculate_indicators` (app.py lines 43–55): copy the input frame and
attach the indicator columns; `pd.concat(axis=1)` on identically indexed
frames keeps the rows and their order. -/
noncomputable def calculate_indicators (s : List Bar) : EnrichedSeries :=
  let c := s.map Bar.close
  { bars := s
    sma20 := (List.range s.length).map (smaAt 20 c)
    sma50 := (List.range s.length).map (smaAt 50 c)
    rsi14 := (List.range s.length).map (rsiAt c)
    macd := (List.range s.length).map (macdAt c)
    macdSignal := (List.range s.length).map (macdSignalAt c)
    macdHist := (List.range s.length).map (macdHistAt c)
    bbMiddle := (List.range s.length).map (bb_middleAt c)
    bbUpper := (List.range s.length).map (bb_upperAt c)
    bbLower := (List.range s.length).map (bb_lowerAt c) }

/-- Row `i` survives the charting dropna (app.py line 60, subset
`SMA_20, SMA_50, RSI, MACD_12_26_9, BBU_20_2.0`); `BBU` is defined exactly
when `SMA_20` and the rolling variance are (see `bb_upperAt_isSome`). -/
def plotKeptB (close : List ℚ) (i : ℕ) : Bool :=
  (smaAt 20 close i).isSome && (smaAt 50 close i).isSome &&
    (rsiAt close i).isSome && (macdAt close i).isSome &&
    ((smaAt 20 close i).isSome && (bbVarAt close i).isSome)

/-- The row indices of `plot_df` (app.py line 60): the rows kept by
dropping every row with a missing value in the charted columns. -/
def plot_dfIndices (close : List ℚ) : List ℕ :=
  (List.range close.length).filter (plotKeptB close)

/-- Every derived field of §4.1 is defined at row `i`. -/
def allDerivedAt (close : List ℚ) (i : ℕ) : Prop :=
  (smaAt 20 close i).isSome ∧ (smaAt 50 close i).isSome ∧
    (rsiAt close i).isSome ∧ (macdAt close i).isSome ∧
    (macdSignalAt close i).isSome ∧ (macdHistAt close i).isSome ∧
    (bb_middleAt close i).isSome ∧ (bb_upperAt close i).isSome ∧
    (bb_lowerAt close i).isSome

/-- Row `i` has every column required by `predict_signal` defined
(app.py line 122, dropna subset `Close, RSI, MACD_12_26_9, MACDs_12_26_9`). -/
def rowRequiredB (close : List ℚ) (i : ℕ) : Bool :=
  (close.get? i).isSome && (rsiAt close i).isSome &&
    (macdAt close i).isSome && (macdSignalAt close i).isSome

/-- The row indices surviving the dropna inside `predict_signal`
(app.py line 122). -/
def keepRows (close : List ℚ) : List ℕ :=
  (List.range close.length).filter (rowRequiredB close)

/-- The close prices of the kept rows, in order (the `Close` column of the
filtered frame). -/
def keptCloses (close : List ℚ) : List ℚ :=
  (keepRows close).filterMap (fun i => close.get? i)

/-- Ordinary least-squares slope of `ys` against day numbers `0..m-1`
(`LinearRegression().fit(df[["DayNum"]], df["Close"])`, app.py 127–130);
with fewer than two points the formula degenerates to slope 0, matching the
minimum-norm least-squares solution. -/
def fitSlope (ys : List ℚ) : ℚ :=
  let xs : List ℚ := (List.range ys.length).map (fun j => (j : ℚ))
  let xbar := listMean xs
  let ybar := listMean ys
  (List.zipWith (fun x y => (x - xbar) * (y - ybar)) xs ys).sum /
    (xs.map (fun x => (x - xbar) ^ 2)).sum

/-- Ordinary least-squares intercept for the same fit. -/
def fitIntercept (ys : List ℚ) : ℚ :=
  listMean ys - fitSlope ys * listMean ((List.range ys.length).map (fun j => (j : ℚ)))

/-- `model.predict(future_days)` (app.py line 131–132): the fitted line
evaluated at day numbers `m .. m + horizon - 1`. -/
def predPrices (close : List ℚ) (horizon : ℕ) : List ℚ :=
  (List.range horizon).map
    (fun j => fitIntercept (keptCloses close) +
      fitSlope (keptCloses close) * (((keptCloses close).length : ℚ) + j))

/-- `avg_pred = np.mean(pred_prices)` (app.py line 133). -/
def avgPred (close : List ℚ) (horizon : ℕ) : ℚ := listMean (predPrices close horizon)

/-- `current_price = df["Close"].iloc[-1]` (app.py line 134): close of the
last kept row. -/
def lastKeptClose (close : List ℚ) : ℚ := ((keptCloses close).getLast?).getD 0

/-- `rsi = df["RSI"].iloc[-1]` (app.py line 137). -/
def rsiLast (close : List ℚ) : ℚ :=
  (((keepRows close).getLast?).bind (rsiAt close)).getD 0

/-- `df["MACD_12_26_9"].iloc[-1]` (app.py line 139). -/
def macdLast (close : List ℚ) : ℚ :=
  (((keepRows close).getLast?).bind (macdAt close)).getD 0

/-- `df["MACDs_12_26_9"].iloc[-1]` (app.py line 139). -/
def macdSignalLast (close : List ℚ) : ℚ :=
  (((keepRows close).getLast?).bind (macdSignalAt close)).getD 0

/-- The trend vote rule (app.py line 136): Buy above `1.005·current`,
Sell below `0.995·current`, else Hold. -/
def trendVote (avg cur : ℚ) : Vote :=
  if avg > cur * (1005 / 1000) then .buy
  else if avg < cur * (995 / 1000) then .sell
  else .hold

/-- The RSI vote rule (app.py line 138): Buy below 30, Sell above 70,
else Hold. -/
def rsiVote (r : ℚ) : Vote :=
  if r < 30 then .buy else if r > 70 then .sell else .hold

/-- The MACD vote rule (app.py line 139): Buy when `macd > macd_signal`,
Sell when `macd < macd_signal`, else Hold. -/
def macdVote (m sv : ℚ) : Vote :=
  if m > sv then .buy else if m < sv then .sell else .hold

/-- The trend vote of the classifier on a given series and horizon. -/
def trendVoteOf (close : List ℚ) (horizon : ℕ) : Vote :=
  trendVote (avgPred close horizon) (lastKeptClose close)

/-- The RSI vote of the classifier on a given series. -/
def rsiVoteOf (close : List ℚ) : Vote := rsiVote (rsiLast close)

/-- The MACD vote of the classifier on a given series. -/
def macdVoteOf (close : List ℚ) : Vote :=
  macdVote (macdLast close) (macdSignalLast close)

/-- `votes = [trend, rsi_sig, macd_sig]` (app.py line 141). -/
def votesOf (close : List ℚ) (horizon : ℕ) : List Vote :=
  [trendVoteOf close horizon, rsiVoteOf close, macdVoteOf close]

/-- The tally (app.py lines 142–147): Buy with at least two Buy votes, else
Sell with at least two Sell votes, else Hold. -/
def overallSignal (vs : List Vote) : Signal :=
  if 2 ≤ vs.count .buy then .buy
  else if 2 ≤ vs.count .sell then .sell
  else .hold

/-- `predict_signal` (app.py lines 121–149): drop incomplete rows; if none
remain return Insufficient Data, else tally the three votes. -/
def predict_signal (close : List ℚ) (horizon : ℕ) : Signal :=
  if keepRows close = [] then .insufficientData
  else overallSignal (votesOf close horizon)

/-! ### Concrete series used as inputs to the theorems below -/

/-- An oscillating 16-bar series ending in a mild rise (closes 100.3, 100.6,
100.9): the trend vote differs between horizons 1 and 5 on it. -/
def cexS : List ℚ :=
  [100, 101, 100, 101, 100, 101, 100, 101, 100, 101, 100, 101, 100,
    1003 / 10, 1006 / 10, 1009 / 10]

/-- A strictly rising 16-bar series (closes 100..115). -/
def r16 : List ℚ := (List.range 16).map (fun i => (100 + i : ℚ))

/-- A constant 16-bar series. -/
def c16 : List ℚ := List.replicate 16 (100 : ℚ)

/-- A constant 20-bar series. -/
def c20 : List ℚ := List.replicate 20 (100 : ℚ)

/-- A 3-bar series: far too short for any RSI/MACD row to be complete. -/
def s3 : List ℚ := [1, 2, 3]

/-- A constant 60-bar series. -/
def s60 : List ℚ := List.replicate 60 (100 : ℚ)

/-! ### General lemmas about the column functions -/

theorem get?_isSome_iff {α : Type} (l : List α) (i : ℕ) :
    (l.get? i).isSome ↔ i < l.length := by
  rw [Option.isSome_iff_ne_none, ne_eq, List.get?_eq_none]
  omega

theorem get?_zipWith_some {f : ℚ → ℚ → ℚ} {l₁ l₂ : List ℚ} {i : ℕ} {a b : ℚ}
    (h₁ : l₁.get? i = some a) (h₂ : l₂.get? i = some b) :
    (List.zipWith f l₁ l₂).get? i = some (f a b) := by
  induction l₁ generalizing l₂ i with
  | nil => simp at h₁
  | cons x xs ih =>
    cases l₂ with
    | nil => simp at h₂
    | cons y ys =>
      cases i with
      | zero => simp_all
      | succ j => simpa using ih (by simpa using h₁) (by simpa using h₂)

theorem length_zipWith_eq {f : ℚ → ℚ → ℚ} {l₁ l₂ : List ℚ}
    (h : l₁.length = l₂.length) :
    (List.zipWith f l₁ l₂).length = l₁.length := by
  simp [List.length_zipWith, h]

theorem ewmaFrom_length (α p : ℚ) (l : List ℚ) :
    (ewmaFrom α p l).length = l.length := by
  induction l generalizing p with
  | nil => rfl
  | cons c cs ih => simp [ewmaFrom, ih]

theorem ewmaList_length (α : ℚ) (l : List ℚ) :
    (ewmaList α l).length = l.length := by
  cases l with
  | nil => rfl
  | cons c cs => simp [ewmaList, ewmaFrom_length]

theorem macdList_length (close : List ℚ) :
    (macdList close).length = close.length := by
  rw [macdList, length_zipWith_eq] <;>
    simp [ema12List, ema26List, ewmaList_length]

theorem macdSignalList_length (close : List ℚ) :
    (macdSignalList close).length = close.length := by
  rw [macdSignalList, ewmaList_length, macdList_length]

theorem macdHistList_length (close : List ℚ) :
    (macdHistList close).length = close.length := by
  rw [macdHistList, length_zipWith_eq, macdList_length]
  rw [macdList_length, macdSignalList_length]

theorem ewmaFrom_const (α C : ℚ) (k : ℕ) :
    ewmaFrom α C (List.replicate k C) = List.replicate k C := by
  induction k with
  | zero => rfl
  | succ j ih =>
    have hC : α * C + (1 - α) * C = C := by ring
    simp [List.replicate_succ, ewmaFrom, hC, ih]

theorem ewmaList_const (α C : ℚ) (n : ℕ) :
    ewmaList α (List.replicate n C) = List.replicate n C := by
  cases n with
  | zero => rfl
  | succ j => simp [List.replicate_succ, ewmaList, ewmaFrom_const]

theorem zipWith_sub_replicate (C : ℚ) (n : ℕ) :
    List.zipWith (fun a b => a - b) (List.replicate n C) (List.replicate n C) =
      List.replicate n (0 : ℚ) := by
  induction n with
  | zero => rfl
  | succ j ih => simp [List.replicate_succ, ih]

theorem smaAt_isSome (k : ℕ) (close : List ℚ) (i : ℕ) :
    (smaAt k close i).isSome ↔ (k ≤ i + 1 ∧ i < close.length) := by
  rw [smaAt]
  split_ifs with h <;> simp [h]

theorem rsiAt_isSome (close : List ℚ) (i : ℕ) :
    (rsiAt close i).isSome ↔ (14 ≤ i ∧ i < close.length) := by
  rw [rsiAt]
  split_ifs with h <;> simp [h]

theorem bbVarAt_isSome (close : List ℚ) (i : ℕ) :
    (bbVarAt close i).isSome ↔ (19 ≤ i ∧ i < close.length) := by
  rw [bbVarAt]
  split_ifs with h <;> simp [h]

theorem macdAt_isSome (close : List ℚ) (i : ℕ) :
    (macdAt close i).isSome ↔ i < close.length := by
  rw [macdAt, get?_isSome_iff, macdList_length]

theorem macdSignalAt_isSome (close : List ℚ) (i : ℕ) :
    (macdSignalAt close i).isSome ↔ i < close.length := by
  rw [macdSignalAt, get?_isSome_iff, macdSignalList_length]

theorem macdHistAt_isSome (close : List ℚ) (i : ℕ) :
    (macdHistAt close i).isSome ↔ i < close.length := by
  rw [macdHistAt, get?_isSome_iff, macdHistList_length]

theorem bb_upperAt_some (close : List ℚ) (i : ℕ) (m v : ℚ)
    (hm : smaAt 20 close i = some m) (hv : bbVarAt close i = some v) :
    bb_upperAt close i = some ((m : ℝ) + 2 * Real.sqrt (v : ℝ)) := by
  simp [bb_upperAt, hm, hv]

theorem bb_lowerAt_some (close : List ℚ) (i : ℕ) (m v : ℚ)
    (hm : smaAt 20 close i = some m) (hv : bbVarAt close i = some v) :
    bb_lowerAt close i = some ((m : ℝ) - 2 * Real.sqrt (v : ℝ)) := by
  simp [bb_lowerAt, hm, hv]

theorem bb_upperAt_isSome (close : List ℚ) (i : ℕ) :
    (bb_upperAt close i).isSome ↔
      ((smaAt 20 close i).isSome ∧ (bbVarAt close i).isSome) := by
  rcases hm : smaAt 20 close i with _ | m <;>
    rcases hv : bbVarAt close i with _ | v <;>
      simp [bb_upperAt, hm, hv]

theorem bb_lowerAt_isSome (close : List ℚ) (i : ℕ) :
    (bb_lowerAt close i).isSome ↔
      ((smaAt 20 close i).isSome ∧ (bbVarAt close i).isSome) := by
  rcases hm : smaAt 20 close i with _ | m <;>
    rcases hv : bbVarAt close i with _ | v <;>
      simp [bb_lowerAt, hm, hv]

theorem overallSignal_ne_insufficient (vs : List Vote) :
    overallSignal vs ≠ Signal.insufficientData := by
  rw [overallSignal]
  split_ifs <;> simp

set_option maxRecDepth 100000

attribute [local semireducible] Rat.add Rat.sub Rat.mul Rat.inv

/-! ### The claims -/

/-- C1, counterexample: on the series `cexS` the classifier returns Hold for
horizon 1 but Buy for horizon 5 — the horizon does influence the
classification, contrary to the claim. -/
theorem C1_counterexample :
    predict_signal cexS 1 = Signal.hold ∧ predict_signal cexS 5 = Signal.buy ∧
      Signal.hold ≠ Signal.buy :=
  ⟨by decide, by decide, by decide⟩

/-- C1 (amended): the horizon reaches `predict_signal` only through the
trend vote (the horizon-averaged regression prediction), so trend-vote
agreement at two horizons is sufficient for the classification to agree.
(It is not necessary: two non-trend Buy votes already force Buy at both
horizons.) -/
theorem C1_horizon_only_through_trend_vote (s : List ℚ) (h₁ h₂ : ℕ)
    (hv : trendVoteOf s h₁ = trendVoteOf s h₂) :
    predict_signal s h₁ = predict_signal s h₂ := by
  rw [predict_signal, predict_signal, votesOf, votesOf, hv]

/-- C1, witness: on the constant series `c16` the trend votes at horizons 1
and 5 agree, so the signals agree. -/
theorem C1_witness :
    trendVoteOf c16 1 = trendVoteOf c16 5 ∧
      predict_signal c16 1 = predict_signal c16 5 :=
  ⟨by decide, C1_horizon_only_through_trend_vote c16 1 5 (by decide)⟩

/-- C2, counterexample: on `cexS` at horizon 1 there is one Buy vote and no
Sell vote, yet the overall signal is Hold, not Buy as the claim states. -/
theorem C2_counterexample :
    (votesOf cexS 1).count Vote.buy = 1 ∧ (votesOf cexS 1).count Vote.sell = 0 ∧
      predict_signal cexS 1 = Signal.hold ∧ Signal.hold ≠ Signal.buy :=
  ⟨by decide, by decide, by decide, by decide⟩

/-- C2 (amended): the code requires at least two Buy (resp. Sell) votes.
When all three votes are cast as Buy or Sell (no Hold), this coincides with
the claimed majority rule: Buy exactly when Buy votes outnumber Sell votes,
Sell exactly when Sell votes outnumber Buy votes, and never Hold. -/
theorem C2_majority_when_all_votes_cast (s : List ℚ) (h : ℕ)
    (hk : keepRows s ≠ []) (hc : ∀ v ∈ votesOf s h, v ≠ Vote.hold) :
    (predict_signal s h = Signal.buy ↔
      (votesOf s h).count Vote.sell < (votesOf s h).count Vote.buy) ∧
    (predict_signal s h = Signal.sell ↔
      (votesOf s h).count Vote.buy < (votesOf s h).count Vote.sell) ∧
    predict_signal s h ≠ Signal.hold := by
  rw [predict_signal, if_neg hk]
  simp only [votesOf] at hc ⊢
  revert hc
  generalize trendVoteOf s h = a
  generalize rsiVoteOf s = b
  generalize macdVoteOf s = c
  intro hc
  cases a <;> cases b <;> cases c <;>
    first
      | decide
      | simp at hc

/-- C2, witness: on the rising series `r16` all three votes are cast
(Buy, Sell, Buy) and the majority rule yields Buy. -/
theorem C2_witness :
    keepRows r16 ≠ [] ∧ (∀ v ∈ votesOf r16 1, v ≠ Vote.hold) ∧
      predict_signal r16 1 = Signal.buy :=
  ⟨by decide, by decide,
    ((C2_majority_when_all_votes_cast r16 1 (by decide) (by decide)).1).mpr
      (by decide)⟩

/-- C3, counterexample: on the constant series `c20` the latest macd and
macd_signal values are equal and the MACD vote is Hold, not Sell as the
claim states. -/
theorem C3_counterexample :
    macdLast c20 = macdSignalLast c20 ∧ macdVoteOf c20 = Vote.hold ∧
      Vote.hold ≠ Vote.sell :=
  ⟨by decide, by decide, by decide⟩

/-- C3 (amended): the MACD vote is Buy when `macd > macd_signal`, Sell when
`macd < macd_signal`, and Hold (an abstention) exactly when they are
equal. -/
theorem C3_macd_vote_trichotomy (m sv : ℚ) :
    (macdVote m sv = Vote.buy ↔ sv < m) ∧
    (macdVote m sv = Vote.sell ↔ m < sv) ∧
    (macdVote m sv = Vote.hold ↔ m = sv) := by
  rw [macdVote]
  rcases lt_trichotomy m sv with hlt | heq | hgt
  · rw [if_neg (asymm hlt), if_pos hlt]
    simp [hlt, hlt.ne, asymm hlt]
  · subst heq
    rw [if_neg (lt_irrefl m), if_neg (lt_irrefl m)]
    simp
  · rw [if_pos hgt]
    simp [hgt, asymm hgt, (ne_of_gt hgt : m ≠ sv)]

/-- C4, counterexample: on the constant series `c20` the latest close equals
sma20 (both 100), so the claim demands a Sell trend vote, but the code's
trend vote (linear-regression based) is Hold. -/
theorem C4_counterexample :
    smaAt 20 c20 19 = some (100 : ℚ) ∧ lastKeptClose c20 = 100 ∧
      ¬ (100 : ℚ) > 100 ∧ trendVoteOf c20 1 = Vote.hold ∧
      Vote.hold ≠ Vote.sell :=
  ⟨by decide, by decide, by decide, by decide, by decide⟩

/-- C4 (amended): the trend vote does not read sma20 at all; it compares the
horizon-averaged linear-regression prediction with the latest complete
close: Buy above `1.005·close`, Sell when not Buy and below `0.995·close`,
Hold otherwise. -/
theorem C4_trend_vote_uses_regression (s : List ℚ) (h : ℕ) :
    (trendVoteOf s h = Vote.buy ↔
      lastKeptClose s * (1005 / 1000) < avgPred s h) ∧
    (trendVoteOf s h = Vote.sell ↔
      (avgPred s h ≤ lastKeptClose s * (1005 / 1000) ∧
        avgPred s h < lastKeptClose s * (995 / 1000))) ∧
    (trendVoteOf s h = Vote.hold ↔
      (avgPred s h ≤ lastKeptClose s * (1005 / 1000) ∧
        lastKeptClose s * (995 / 1000) ≤ avgPred s h)) := by
  rw [trendVoteOf, trendVote]
  split_ifs with h1 h2
  · have hn := not_le.mpr h1
    simp [h1, hn]
  · have hle := not_lt.mp h1
    have hn := not_le.mpr h2
    simp [h1, h2, hle, hn]
  · have hle := not_lt.mp h1
    have hge := not_lt.mp h2
    simp [h1, h2, hle, hge]

/-- C5: on a constant-price series every EWMA stays at the constant, so macd
and macd_signal are identically zero and defined at every index from 0. -/
theorem C5_constant_series_macd_zero (n : ℕ) (C : ℚ) :
    ema12List (List.replicate n C) = List.replicate n C ∧
    ema26List (List.replicate n C) = List.replicate n C ∧
    macdList (List.replicate n C) = List.replicate n 0 ∧
    macdSignalList (List.replicate n C) = List.replicate n 0 ∧
    (∀ i, i < n →
      macdAt (List.replicate n C) i = some 0 ∧
      macdSignalAt (List.replicate n C) i = some 0) := by
  have h12 : ema12List (List.replicate n C) = List.replicate n C :=
    ewmaList_const _ _ _
  have h26 : ema26List (List.replicate n C) = List.replicate n C :=
    ewmaList_const _ _ _
  have hm : macdList (List.replicate n C) = List.replicate n 0 := by
    rw [macdList, h12, h26]
    exact zipWith_sub_replicate C n
  have hs : macdSignalList (List.replicate n C) = List.replicate n 0 := by
    rw [macdSignalList, hm]
    exact ewmaList_const _ _ _
  refine ⟨h12, h26, hm, hs, fun i hi => ⟨?_, ?_⟩⟩
  · rw [macdAt, hm]
    simp [List.get?_eq_getElem?, List.getElem?_replicate, hi]
  · rw [macdSignalAt, hs]
    simp [List.get?_eq_getElem?, List.getElem?_replicate, hi]

/-- C5, witness: instantiated on a constant 3-bar series at index 1. -/
theorem C5_witness :
    macdAt (List.replicate 3 (100 : ℚ)) 1 = some 0 ∧
      macdSignalAt (List.replicate 3 (100 : ℚ)) 1 = some 0 :=
  (C5_constant_series_macd_zero 3 100).2.2.2.2 1 (by decide)

/-- C6: `calculate_indicators` keeps the bars (hence the timestamps, in
order) and every derived column has the same length as the input series. -/
theorem C6_same_length_and_timestamps (s : List Bar) :
    (calculate_indicators s).bars.map Bar.ts = s.map Bar.ts ∧
    (calculate_indicators s).bars.length = s.length ∧
    (calculate_indicators s).sma20.length = s.length ∧
    (calculate_indicators s).sma50.length = s.length ∧
    (calculate_indicators s).rsi14.length = s.length ∧
    (calculate_indicators s).macd.length = s.length ∧
    (calculate_indicators s).macdSignal.length = s.length ∧
    (calculate_indicators s).macdHist.length = s.length ∧
    (calculate_indicators s).bbMiddle.length = s.length ∧
    (calculate_indicators s).bbUpper.length = s.length ∧
    (calculate_indicators s).bbLower.length = s.length := by
  simp [calculate_indicators]

/-- C7: a row survives the charting dropna exactly when `49 ≤ i`, which is
also exactly when every derived field of §4.1 is defined (sma50 is the
binding constraint); on a 60-bar series exactly rows 49–59 remain, 11 of
them. -/
theorem C7_drop_incomplete_rows (s : List ℚ) :
    (∀ i, i < s.length →
      ((plotKeptB s i = true) ↔ 49 ≤ i) ∧ (allDerivedAt s i ↔ 49 ≤ i)) ∧
    (s.length = 60 →
      plot_dfIndices s = List.range' 49 11 ∧ (plot_dfIndices s).length = 11) := by
  have hkept : ∀ i, i < s.length → (plotKeptB s i = true ↔ 49 ≤ i) := by
    intro i hi
    rw [plotKeptB]
    simp only [Bool.and_eq_true, smaAt_isSome, rsiAt_isSome, macdAt_isSome,
      bbVarAt_isSome]
    omega
  refine ⟨fun i hi => ⟨hkept i hi, ?_⟩, fun h60 => ?_⟩
  · rw [allDerivedAt, bb_middleAt]
    simp only [bb_upperAt_isSome, bb_lowerAt_isSome, smaAt_isSome,
      rsiAt_isSome, macdAt_isSome, macdSignalAt_isSome, macdHistAt_isSome,
      bbVarAt_isSome]
    omega
  · have hcongr : plot_dfIndices s =
        (List.range s.length).filter (fun i => decide (49 ≤ i)) := by
      rw [plot_dfIndices]
      apply List.filter_congr
      intro i hi
      rw [List.mem_range] at hi
      by_cases h49 : 49 ≤ i
      · simp [(hkept i hi).mpr h49, h49]
      · have hfalse : ¬ plotKeptB s i = true := fun hh => h49 ((hkept i hi).mp hh)
        rw [Bool.not_eq_true] at hfalse
        simp [hfalse, h49]
    rw [hcongr, h60]
    exact ⟨by decide, by decide⟩

/-- C7, witness: on a concrete 60-bar series the kept rows are 49–59. -/
theorem C7_witness :
    plot_dfIndices s60 = List.range' 49 11 ∧ (plot_dfIndices s60).length = 11 :=
  (C7_drop_incomplete_rows s60).2 (by simp [s60])

/-- C8: wherever the upper, middle and lower Bollinger bands are all
defined (for a positive-price series, as the claim states), they are
ordered `bb_lower ≤ bb_middle ≤ bb_upper`. -/
theorem C8_bollinger_band_order (s : List ℚ) (i : ℕ)
    (hpos : ∀ x ∈ s, 0 < x) (u l : ℝ) (m : ℚ)
    (hu : bb_upperAt s i = some u) (hm : bb_middleAt s i = some m)
    (hl : bb_lowerAt s i = some l) :
    l ≤ (m : ℝ) ∧ (m : ℝ) ≤ u := by
  obtain ⟨hs1, hs2⟩ := (bb_upperAt_isSome s i).mp (by rw [hu]; rfl)
  obtain ⟨mq, hmq⟩ := Option.isSome_iff_exists.mp hs1
  obtain ⟨v, hv⟩ := Option.isSome_iff_exists.mp hs2
  rw [bb_upperAt_some s i mq v hmq hv] at hu
  rw [bb_lowerAt_some s i mq v hmq hv] at hl
  rw [bb_middleAt, hmq] at hm
  have hu2 : u = (mq : ℝ) + 2 * Real.sqrt (v : ℝ) := (Option.some.inj hu).symm
  have hl2 : l = (mq : ℝ) - 2 * Real.sqrt (v : ℝ) := (Option.some.inj hl).symm
  have hm2 : m = mq := (Option.some.inj hm).symm
  have hsq : 0 ≤ Real.sqrt (v : ℝ) := Real.sqrt_nonneg _
  subst hu2 hl2 hm2
  constructor <;> [linarith; linarith]

/-- C8, witness: on the constant positive series `c20` at index 19 all three
bands equal 100 and the ordering holds. -/
theorem C8_witness :
    ((100 : ℝ) ≤ ((100 : ℚ) : ℝ)) ∧ (((100 : ℚ) : ℝ) ≤ (100 : ℝ)) := by
  refine C8_bollinger_band_order c20 19 (by decide) 100 100 100 ?_ (by decide) ?_
  · rw [bb_upperAt_some c20 19 100 0 (by decide) (by decide)]
    norm_num [Real.sqrt_zero]
  · rw [bb_lowerAt_some c20 19 100 0 (by decide) (by decide)]
    norm_num [Real.sqrt_zero]

/-- C9: wherever macd and macd_signal are defined, the histogram equals
their difference exactly. -/
theorem C9_macd_hist_exact (s : List ℚ) (i : ℕ) (m g : ℚ)
    (hm : macdAt s i = some m) (hg : macdSignalAt s i = some g) :
    macdHistAt s i = some (m - g) := by
  rw [macdAt] at hm
  rw [macdSignalAt] at hg
  rw [macdHistAt, macdHistList]
  exact get?_zipWith_some hm hg

/-- C9, witness: on a constant 3-bar series at index 1 the histogram is
`0 - 0`. -/
theorem C9_witness :
    macdHistAt (List.replicate 3 (100 : ℚ)) 1 = some 0 := by
  simpa using
    C9_macd_hist_exact (List.replicate 3 (100 : ℚ)) 1 0 0 (by decide) (by decide)

/-- C10: when every row misses a required field the classifier returns the
explicit Insufficient Data signal; when some row is complete it never
returns it (and, by construction, classifies from the complete rows only). -/
theorem C10_explicit_insufficient (s : List ℚ) (h : ℕ) :
    ((∀ i, i < s.length → rowRequiredB s i = false) →
      predict_signal s h = Signal.insufficientData) ∧
    (keepRows s ≠ [] → predict_signal s h ≠ Signal.insufficientData) := by
  constructor
  · intro hall
    have hk : keepRows s = [] := by
      rw [keepRows, List.filter_eq_nil_iff]
      intro a ha
      rw [List.mem_range] at ha
      simp [hall a ha]
    rw [predict_signal, if_pos hk]
  · intro hk
    rw [predict_signal, if_neg hk]
    exact overallSignal_ne_insufficient _

/-- C10, witness: a 3-bar series yields Insufficient Data; the 16-bar rising
series does not. -/
theorem C10_witness :
    predict_signal s3 1 = Signal.insufficientData ∧
      predict_signal r16 1 ≠ Signal.insufficientData :=
  ⟨(C10_explicit_insufficient s3 1).1 (by decide),
    (C10_explicit_insufficient r16 1).2 (by decide)⟩

end TeslaApp
